import Mathlib

/-!
Verification development for the chat widget script `src/streamlit_app.py`
(single-page chat UI: streaming response consumer plus per-message feedback
capture flow).  The Python source is shallowly embedded: the JSON handling
is modelled by an executable JSON value type and parser emulating
`json.loads`, the per-line stream loop and the non-streaming fallback are
modelled as pure functions threading explicit state, Python runtime errors
(TypeError, KeyError, ...) are modelled with `Except`, and the
session-state driven feedback render loop is modelled as a fold over the
message indices mirroring the script body.
-/

namespace ChatApp

/-! ## JSON values (results of Python `json.loads`) -/

/-- A decoded JSON value, as produced by Python `json.loads`.
Numbers keep their source lexeme (the claims never depend on numeric
value beyond zero-ness, which `jsonNumIsZero` below decides);
objects keep their key/value pairs in source order (Python dict
construction makes the last duplicate key win, see `objGet`). -/
inductive Json where
  | null
  | bool (b : Bool)
  | num (lit : String)
  | str (s : String)
  | arr (elems : List Json)
  | obj (fields : List (String × Json))

/-! ## A JSON parser emulating `json.loads`

`json.loads` accepts a single JSON value with optional surrounding
whitespace (space, tab, newline, carriage return) and additionally the
constants `NaN`, `Infinity`, `-Infinity`; it rejects trailing data and
raw control characters inside strings.  The parser below is fuel-based
recursive descent over the character list; fuel `2 * length + 4` is
ample since every two fuel units consume at least one character. -/

def isWsChar (c : Char) : Bool :=
  c = ' ' || c = '\t' || c = '\n' || c = '\r'

def skipWs : List Char → List Char
  | [] => []
  | c :: cs => if isWsChar c then skipWs cs else c :: cs

def hexVal (c : Char) : Option Nat :=
  if '0' ≤ c ∧ c ≤ '9' then some (c.toNat - '0'.toNat)
  else if 'a' ≤ c ∧ c ≤ 'f' then some (c.toNat - 'a'.toNat + 10)
  else if 'A' ≤ c ∧ c ≤ 'F' then some (c.toNat - 'A'.toNat + 10)
  else none

/-- Body of a JSON string literal after the opening quote: returns the
decoded characters and the remaining input after the closing quote. -/
def parseStringChars : List Char → Option (List Char × List Char)
  | [] => none
  | '"' :: rest => some ([], rest)
  | '\\' :: e :: rest =>
    match e with
    | '"' => (parseStringChars rest).map (fun p => ('"' :: p.1, p.2))
    | '\\' => (parseStringChars rest).map (fun p => ('\\' :: p.1, p.2))
    | '/' => (parseStringChars rest).map (fun p => ('/' :: p.1, p.2))
    | 'b' => (parseStringChars rest).map (fun p => ('\x08' :: p.1, p.2))
    | 'f' => (parseStringChars rest).map (fun p => ('\x0c' :: p.1, p.2))
    | 'n' => (parseStringChars rest).map (fun p => ('\n' :: p.1, p.2))
    | 'r' => (parseStringChars rest).map (fun p => ('\r' :: p.1, p.2))
    | 't' => (parseStringChars rest).map (fun p => ('\t' :: p.1, p.2))
    | 'u' =>
      match rest with
      | a :: b :: c :: d :: rest2 =>
        match hexVal a, hexVal b, hexVal c, hexVal d with
        | some ha, some hb, some hc, some hd =>
          let n := ((ha * 16 + hb) * 16 + hc) * 16 + hd
          (parseStringChars rest2).map (fun p => (Char.ofNat n :: p.1, p.2))
        | _, _, _, _ => none
      | _ => none
    | _ => none
  | c :: rest =>
    if c.toNat < 0x20 then none
    else (parseStringChars rest).map (fun p => (c :: p.1, p.2))

def digitSpan : List Char → List Char × List Char
  | [] => ([], [])
  | c :: cs =>
    if c.isDigit then
      let p := digitSpan cs
      (c :: p.1, p.2)
    else ([], c :: cs)

/-- JSON number grammar `-? (0 | [1-9][0-9]*) (. [0-9]+)? ([eE][+-]?[0-9]+)?`,
returning the lexeme (as Python keeps the numeric value; zero-ness is all
the embedded code ever observes).  -/
def parseNumber (input : List Char) : Option (String × List Char) :=
  let (sign, afterSign) :=
    match input with
    | '-' :: cs => (['-'], cs)
    | cs => (([] : List Char), cs)
  match afterSign with
  | [] => none
  | c :: cs =>
    if ¬ c.isDigit then none
    else
      let (intPart, afterInt) :=
        if c = '0' then ([c], cs)
        else
          let p := digitSpan cs
          (c :: p.1, p.2)
      let (fracPart, afterFrac) :=
        match afterInt with
        | '.' :: cs2 =>
          let p := digitSpan cs2
          if p.1.isEmpty then ([], '.' :: cs2) else ('.' :: p.1, p.2)
        | other => ([], other)
      -- a '.' not followed by a digit is not part of the number; Python's
      -- regex then leaves it as trailing data, failing the overall parse
      if fracPart.isEmpty && (match afterInt with | '.' :: _ => true | _ => false) then none
      else
        let (expPart, afterExp) :=
          match afterFrac with
          | e :: cs2 =>
            if e = 'e' ∨ e = 'E' then
              match cs2 with
              | s :: cs3 =>
                if s = '+' ∨ s = '-' then
                  let p := digitSpan cs3
                  if p.1.isEmpty then ([], afterFrac) else (e :: s :: p.1, p.2)
                else
                  let p := digitSpan cs2
                  if p.1.isEmpty then ([], afterFrac) else (e :: p.1, p.2)
              | [] => ([], afterFrac)
            else ([], afterFrac)
          | [] => ([], afterFrac)
        some (⟨sign ++ intPart ++ fracPart ++ expPart⟩, afterExp)

/-- Does `pre` start the list, and if so return the rest. -/
def dropLit : List Char → List Char → Option (List Char)
  | [], input => some input
  | _ :: _, [] => none
  | p :: ps, c :: cs => if p = c then dropLit ps cs else none

mutual

/-- One JSON value at the head of the input (input already at a value
start, no leading whitespace). -/
def parseValue : Nat → List Char → Option (Json × List Char)
  | 0, _ => none
  | fuel + 1, input =>
    match input with
    | [] => none
    | '"' :: rest => (parseStringChars rest).map (fun p => (.str ⟨p.1⟩, p.2))
    | '\x7b' :: rest =>
      match skipWs rest with
      | '\x7d' :: rest2 => some (.obj [], rest2)
      | other => (parseObjRest fuel other).map (fun p => (.obj p.1, p.2))
    | '[' :: rest =>
      match skipWs rest with
      | ']' :: rest2 => some (.arr [], rest2)
      | other => (parseArrRest fuel other).map (fun p => (.arr p.1, p.2))
    | _ =>
      match parseNumber input with
      | some (lit, rest) => some (.num lit, rest)
      | none =>
        match dropLit ['n', 'u', 'l', 'l'] input with
        | some rest => some (.null, rest)
        | none =>
        match dropLit ['t', 'r', 'u', 'e'] input with
        | some rest => some (.bool true, rest)
        | none =>
        match dropLit ['f', 'a', 'l', 's', 'e'] input with
        | some rest => some (.bool false, rest)
        | none =>
        match dropLit ['N', 'a', 'N'] input with
        | some rest => some (.num "NaN", rest)
        | none =>
        match dropLit ['I', 'n', 'f', 'i', 'n', 'i', 't', 'y'] input with
        | some rest => some (.num "Infinity", rest)
        | none =>
        match dropLit ['-', 'I', 'n', 'f', 'i', 'n', 'i', 't', 'y'] input with
        | some rest => some (.num "-Infinity", rest)
        | none => none

/-- Array elements, input at a value start (after `[` + ws or `,` + ws). -/
def parseArrRest : Nat → List Char → Option (List Json × List Char)
  | 0, _ => none
  | fuel + 1, input => do
    let (v, r) ← parseValue fuel input
    match skipWs r with
    | ',' :: r2 =>
      let (vs, r3) ← parseArrRest fuel (skipWs r2)
      some (v :: vs, r3)
    | ']' :: r2 => some ([v], r2)
    | _ => none

/-- Object members, input at a key start (after `{` + ws or `,` + ws). -/
def parseObjRest : Nat → List Char → Option (List (String × Json) × List Char)
  | 0, _ => none
  | fuel + 1, input =>
    match input with
    | '"' :: r => do
      let (k, r1) ← parseStringChars r
      match skipWs r1 with
      | ':' :: r2 => do
        let (v, r3) ← parseValue fuel (skipWs r2)
        match skipWs r3 with
        | ',' :: r4 =>
          let (kvs, r5) ← parseObjRest fuel (skipWs r4)
          some ((⟨k⟩, v) :: kvs, r5)
        | '\x7d' :: r4 => some ([(⟨k⟩, v)], r4)
        | _ => none
      | _ => none
    | _ => none

end

/-- `json.loads`: one value, optional surrounding whitespace, no trailing
data; `none` models `json.JSONDecodeError` (or `ValueError`). -/
def Json.parse (s : String) : Option Json :=
  let cs := skipWs s.data
  match parseValue (2 * cs.length + 4) cs with
  | some (v, rest) => if skipWs rest = [] then some v else none
  | none => none

/-! ## Python runtime semantics on decoded values -/

/-- Python exception kinds arising in the embedded fragments.
`runtimeError` is the requests-library
`RuntimeError("The content for this response was already consumed")`
raised by `Response.content` once `iter_lines()` has exhausted the
stream. -/
inductive PyErr where
  | typeError
  | keyError
  | indexError
  | attributeError
  | valueError
  | runtimeError
deriving DecidableEq, Repr

def isStrChoices : Json → Bool
  | .str s => s = "choices"
  | _ => false

def listHasPre : List Char → List Char → Bool
  | [], _ => true
  | _ :: _, [] => false
  | p :: ps, c :: cs => p = c && listHasPre ps cs

def listSubstr (needle : List Char) : List Char → Bool
  | [] => needle.isEmpty
  | c :: cs => listHasPre needle (c :: cs) || listSubstr needle cs

/-- Python `"choices" in data`: key test on dicts, membership on lists,
substring test on strings, `TypeError` on `None`/booleans/numbers. -/
def pyInChoices : Json → Except PyErr Bool
  | .obj kvs => .ok (kvs.any (fun kv => kv.1 = "choices"))
  | .arr xs => .ok (xs.any isStrChoices)
  | .str s => .ok (listSubstr "choices".data s.data)
  | _ => .error .typeError

/-- Python dict lookup: the last duplicate key wins. -/
def objGet (kvs : List (String × Json)) (k : String) : Option Json :=
  (kvs.reverse.find? (fun kv => kv.1 == k)).map (·.2)

/-- Python `x[k]` for a string key `k`: dict lookup (`KeyError` when the
key is missing), `TypeError` on lists/strings/others. -/
def pySubscriptKey (x : Json) (k : String) : Except PyErr Json :=
  match x with
  | .obj kvs =>
    match objGet kvs k with
    | some v => .ok v
    | none => .error .keyError
  | _ => .error .typeError

/-- Python `len(x)`: length of lists and strings, number of distinct keys
of dicts, `TypeError` otherwise. -/
def pyLen : Json → Except PyErr Nat
  | .arr xs => .ok xs.length
  | .str s => .ok s.length
  | .obj kvs => .ok ((kvs.map (·.1)).eraseDups.length)
  | _ => .error .typeError

/-- Python `x[0]`: first element of a list (`IndexError` when empty),
one-character string for strings, `KeyError` for dicts (decoded JSON
objects only have string keys), `TypeError` otherwise. -/
def pyIndexZero : Json → Except PyErr Json
  | .arr [] => .error .indexError
  | .arr (x :: _) => .ok x
  | .str s =>
    match s.data with
    | [] => .error .indexError
    | c :: _ => .ok (.str ⟨[c]⟩)
  | .obj _ => .error .keyError
  | _ => .error .typeError

/-- Python `x.get(k, default)`: only dicts have `.get`
(`AttributeError` otherwise). -/
def pyGet (x : Json) (k : String) (default : Json) : Except PyErr Json :=
  match x with
  | .obj kvs =>
    match objGet kvs k with
    | some v => .ok v
    | none => .ok default
  | _ => .error .attributeError

/-- Is a JSON number lexeme numerically zero (`0`, `-0.000`, `0e7`, ...)?
`NaN` and the infinities are not zero. -/
def jsonNumIsZero (lit : String) : Bool :=
  if lit = "NaN" ∨ lit = "Infinity" ∨ lit = "-Infinity" then false
  else
    let mantissa := lit.data.takeWhile (fun c => c ≠ 'e' ∧ c ≠ 'E')
    mantissa.all (fun c => ¬ c.isDigit ∨ c = '0')

/-- Python truthiness of a decoded JSON value. -/
def pyTruthy : Json → Bool
  | .null => false
  | .bool b => b
  | .num lit => ! jsonNumIsZero lit
  | .str s => ! (s == "")
  | .arr xs => ! xs.isEmpty
  | .obj kvs => ! kvs.isEmpty

/-! ## Streaming response consumer (lines 97-132 of `streamlit_app.py`) -/

/-- The loop state of the `for line in response.iter_lines()` loop:
`got` is the `got_streaming` flag, `reply` the accumulated reply string,
and `frags` the list of content fragments appended so far (the sequence
of yields, recorded so theorems can speak about individual fragments;
`reply` is always their concatenation). -/
structure StreamSt where
  got : Bool
  reply : String
  frags : List String
deriving DecidableEq, Repr

/-- One iteration of the stream loop, for one line already decoded from
bytes.  `if line:` skips blank lines; `json.loads` failure is caught by
`except json.JSONDecodeError: continue`; every other exception escapes
(modelled by `Except.error`):

    if "choices" in data and len(data["choices"]) > 0:
        delta = data["choices"][0].get("delta", {})
        token = delta.get("content", "")
        if token:
            got_streaming = True
            reply += token
-/
def processLine (line : String) (s : StreamSt) : Except PyErr StreamSt :=
  if line = "" then .ok s
  else
    match Json.parse line with
    | none => .ok s
    | some data => do
      let has ← pyInChoices data
      if has then do
        let choices ← pySubscriptKey data "choices"
        let n ← pyLen choices
        if n > 0 then do
          let c0 ← pyIndexZero choices
          let delta ← pyGet c0 "delta" (.obj [])
          let token ← pyGet delta "content" (.str "")
          if pyTruthy token then
            match token with
            | .str t => .ok { got := true, reply := s.reply ++ t, frags := s.frags ++ [t] }
            | _ => .error .typeError
          else .ok s
        else .ok s
      else .ok s

/-- Fold the loop body over the response lines starting from state `s`. -/
def consumeFrom (s : StreamSt) (lines : List String) : Except PyErr StreamSt :=
  lines.foldlM (fun st l => processLine l st) s

/-- The whole stream loop (`got_streaming = False`, `reply = ""` at entry). -/
def consumeLines (lines : List String) : Except PyErr StreamSt :=
  consumeFrom { got := false, reply := "", frags := [] } lines

def isArr : Json → Bool
  | .arr _ => true
  | _ => false

def isStrJson : Json → Bool
  | .str _ => true
  | _ => false

/-- `response.json()` at line 117.  The fallback block runs only after
`for line in response.iter_lines()` has exhausted the stream; in requests
that marks the content consumed without buffering it, and
`Response.content` — which both `.json()` and `.text` read — then raises
`RuntimeError("The content for this response was already consumed")`
before any JSON decode can happen. -/
def response_json_consumed : Except PyErr Json := .error .runtimeError

/-- `response.text` at line 125: the same consumed-content read, raising
the same RuntimeError — this time inside the `except Exception` handler,
where nothing catches it. -/
def response_text_consumed : Except PyErr String := .error .runtimeError

/-- The if-chain of the `try` block (lines 118-123) on a decoded value:

    if "choices" in data and isinstance(data["choices"], list):
        reply = data["choices"][0]["message"]["content"]
    elif isinstance(data, str):
        reply = data
    else:
        reply = "⚠️ Unexpected response format."

Unreachable in this program: the `data = response.json()` that would
feed it raises before decoding (see `response_json_consumed`). -/
def fallbackAttempt (data : Json) : Except PyErr Json := do
  let has ← pyInChoices data
  let cond ← if has then do
      let choices ← pySubscriptKey data "choices"
      pure (isArr choices)
    else pure false
  if cond then do
    let choices ← pySubscriptKey data "choices"
    let c0 ← pyIndexZero choices
    let msg ← pySubscriptKey c0 "message"
    let content ← pySubscriptKey msg "content"
    pure content
  else if isStrJson data then pure data
  else pure (.str "⚠️ Unexpected response format.")

/-- Fallback reply (lines 114-125): the `try` block fails with the
consumed-content RuntimeError, the `except Exception` clause catches it,
and the handler evaluates `response.text or "⚠️ Could not parse model
response."` — whose `response.text` raises the RuntimeError again,
uncaught (Python `or` would pick the placeholder exactly when the body
text is empty, but no text is ever obtained). -/
def fallbackReply : Except PyErr Json :=
  match (do
      let data ← response_json_consumed
      fallbackAttempt data : Except PyErr Json) with
  | .ok v => .ok v
  | .error _ => do
    let text ← response_text_consumed
    pure (if text = "" then .str "⚠️ Could not parse model response." else .str text)

/-- Python `str.split()` with no arguments: split on runs of whitespace,
discarding empty pieces.  `acc` holds the current word reversed. -/
def pySplitChars : List Char → List Char → List String
  | [], acc => if acc.isEmpty then [] else [⟨acc.reverse⟩]
  | c :: rest, acc =>
    if isWsChar c || c = '\x0b' || c = '\x0c' then
      if acc.isEmpty then pySplitChars rest [] else ⟨acc.reverse⟩ :: pySplitChars rest []
    else pySplitChars rest (c :: acc)

def pySplit (s : String) : List String := pySplitChars s.data []

/-- `simulate_streaming_text` (lines 57-65): re-renders the reply word by
word, so the returned text is the whitespace-separated words re-joined
with one trailing space each (UI placeholder updates are elided). -/
def simulate_streaming_text (full_text : String) : String :=
  (pySplit full_text).foldl (fun reply token => reply ++ token ++ " ") ""

/-- Lines 114-132: after the loop, a genuinely streamed reply is used as
accumulated; otherwise the fallback tries to re-read the response and the
result would be pushed through `simulate_streaming_text` (whose
`.split()` call raises `AttributeError` on a non-string reply) — but the
fallback itself raises, so this path never produces a reply. -/
def finalizeReply (st : StreamSt) : Except PyErr String :=
  if st.got then .ok st.reply
  else do
    let r ← fallbackReply
    match r with
    | .str s => .ok (simulate_streaming_text s)
    | _ => .error .attributeError

/-! ## One chat turn (lines 70-138) -/

/-- A conversation message `{role, content}`. -/
structure Msg where
  role : String
  content : String
deriving DecidableEq, Repr

/-- Outcome of the `requests.post` call, supplied by the environment:
either a `requests.exceptions.RequestException` with its rendered
description, or a response with a status code, its body text and the
sequence of lines `iter_lines` yields.  `text` is what `response.text`
returns at line 92, where it runs before any iteration and buffers the
body; on the 200 path the stream is consumed by `iter_lines` instead and
the body text can no longer be read (see `response_text_consumed`). -/
inductive HttpOutcome where
  | connError (desc : String)
  | response (status : Nat) (text : String) (lines : List String)

/-- One user turn: append the user message, contact the endpoint, and
append the assistant reply.  A non-200 status surfaces the body verbatim;
a connection error substitutes the single inline error fragment; an
uncaught Python exception on the streaming path aborts the rerun before
anything is appended (modelled by `Except.error`). -/
def runTurn (messages : List Msg) (userInput : String) (out : HttpOutcome) :
    Except PyErr (List Msg) :=
  let msgs := messages ++ [{ role := "user", content := userInput }]
  match out with
  | .connError e =>
    .ok (msgs ++ [{ role := "assistant", content := "❌ Connection error: " ++ e }])
  | .response status text lines =>
    if status ≠ 200 then
      .ok (msgs ++ [{ role := "assistant",
                      content := "❌ Request failed with " ++ toString status ++ ": " ++ text }])
    else do
      let st ← consumeLines lines
      let reply ← finalizeReply st
      .ok (msgs ++ [{ role := "assistant", content := reply }])

/-! ## Feedback capture flow (lines 18-22, 27-52, 143-223) -/

/-- Question lookup (lines 152-157):

    question_idx = idx - 1
    question = (
        st.session_state.messages[question_idx]["content"]
        if question_idx >= 0 and st.session_state.messages[question_idx]["role"] == "user"
        else ""
    )

`idx = 0` gives `question_idx = -1 < 0`, hence the empty string (the Nat
pattern match below mirrors the `>= 0` guard); the out-of-range case
cannot occur for indices produced by `enumerate` over the list. -/
def questionFor (msgs : List Msg) (idx : Nat) : String :=
  match idx with
  | 0 => ""
  | j + 1 =>
    match msgs.get? j with
    | some m => if m.role = "user" then m.content else ""
    | none => ""

/-- The content of the nearest preceding user message, stated from the
words of the spec ("every assistant message's associated question is the
nearest preceding user message, or empty text if none exists"); compared
against `questionFor`, the lookup the code performs. -/
def nearestPrecedingUserContent (msgs : List Msg) (idx : Nat) : String :=
  match (msgs.take idx).reverse.find? (fun m => m.role == "user") with
  | some m => m.content
  | none => ""

/-- Outcome of the Databricks connect-and-insert performed inside
`store_feedback`; the warehouse itself is an external collaborator, so
the environment supplies success or an exception description. -/
inductive DbOutcome where
  | success
  | fail (msg : String)
deriving DecidableEq, Repr

/-- The body of the `try` block of `store_feedback` (lines 29-50): open
a connection, insert one row, close; any exception propagates. -/
def store_feedback_insert (o : DbOutcome) : Except String Unit :=
  match o with
  | .success => .ok ()
  | .fail m => .error m

/-- `store_feedback` (lines 27-52): the `except Exception` clause turns
every failure into a printed log line, so the function always returns
normally; the result is the list of log lines printed.  The outer
`Except String` records whether an exception escapes to the caller
(it never does). -/
def store_feedback (o : DbOutcome) : Except String (List String) :=
  match store_feedback_insert o with
  | .ok _ => .ok []
  | .error e => .ok ["⚠️ Could not store feedback: " ++ e]

/-- Value of `st.session_state[f"feedback_{idx}"]`: `"none"` (the
`st.session_state.get(feedback_key, "none")` default), `"thumbs_up"`,
or `"thumbs_down"`. -/
inductive FbStatus where
  | unrated
  | thumbsUp
  | thumbsDown
deriving DecidableEq, Repr

/-- The session state the feedback flow reads and writes: the
per-message `feedback_{idx}` keys and the single session-wide
`pending_feedback` slot (lines 21-22 initialize it to `None`). -/
structure FbState where
  status : Nat → FbStatus
  pending : Option Nat

/-- Fresh session (lines 18-22). -/
def initFb : FbState := { status := fun _ => .unrated, pending := none }

/-- The user interaction a rerun is processing: at most one widget event
(a thumbs button click, a form submission) per rerun. -/
inductive FbEvent where
  | clickUp (i : Nat)
  | clickDown (i : Nat)
  | submitForm (i : Nat)
  | noEvent
deriving DecidableEq, Repr

/-- A row inserted into the feedback table (the timestamp column is
supplied by `datetime.now()` and is abstracted away). -/
structure FeedbackRecord where
  question : String
  answer : String
  score : String
  comment : String
  category : String
  user : String
deriving DecidableEq, Repr

/-- Inputs of one render pass: the conversation history plus the values
the form widgets hold (free-text comment and selected category, per
message index). -/
structure RenderCtx where
  msgs : List Msg
  commentText : Nat → String
  categoryChoice : Nat → String

/-- Everything one render pass produces: the updated session state, the
message indices whose capture form was created (in render order), the
indices that showed the success acknowledgment, the feedback records
dispatched to background persistence, and the `just_submitted_feedback`
flag. -/
structure PassResult where
  state : FbState
  formsShown : List Nat
  acksShown : List Nat
  dispatched : List FeedbackRecord
  justSubmitted : Bool

def setStatus (s : FbState) (i : Nat) (v : FbStatus) : FbState :=
  { s with status := fun j => if j = i then v else s.status j }

def mkRecord (ctx : RenderCtx) (i : Nat) (answer score category : String) : FeedbackRecord :=
  { question := questionFor ctx.msgs i
    answer := answer
    score := score
    comment := ctx.commentText i
    category := category
    user := "" }

/-- Lines 159-174: `feedback_status` is read into a local (line 160) and
the two rating buttons render only when it is `"none"`; a click stores
the rating under `feedback_{idx}` and points `pending_feedback` at this
message. -/
def buttonPhase (e : FbEvent) (s : FbState) (i : Nat) : FbState :=
  if s.status i = .unrated then
    match e with
    | .clickUp j => if j = i then { setStatus s i .thumbsUp with pending := some i } else s
    | .clickDown j => if j = i then { setStatus s i .thumbsDown with pending := some i } else s
    | _ => s
  else s

/-- Lines 176-218: the dynamic capture form.  Line 177 re-reads the
(possibly just updated) `pending_feedback` and lines 179/203 re-read the
updated `feedback_{idx}`, so the form of a freshly clicked message
renders within the same pass; a submission clears `pending_feedback` and
dispatches one record.  Result: the state after this block, the forms
rendered here, the records dispatched here, and whether a submission
happened here. -/
def formPhase (ctx : RenderCtx) (e : FbEvent) (m : Msg) (i : Nat) (s1 : FbState) :
    FbState × List Nat × List FeedbackRecord × Bool :=
  if s1.pending = some i then
    match s1.status i with
    | .thumbsDown =>
      if e = .submitForm i then
        ({ s1 with pending := none }, [i],
         [mkRecord ctx i m.content "thumbs_down" (ctx.categoryChoice i)], true)
      else (s1, [i], ([] : List FeedbackRecord), false)
    | .thumbsUp =>
      if e = .submitForm i then
        ({ s1 with pending := none }, [i],
         [mkRecord ctx i m.content "thumbs_up" ""], true)
      else (s1, [i], ([] : List FeedbackRecord), false)
    | .unrated => (s1, ([] : List Nat), ([] : List FeedbackRecord), false)
  else (s1, ([] : List Nat), ([] : List FeedbackRecord), false)

/-- The body of the `for idx, msg in enumerate(st.session_state.messages)`
loop (lines 146-222) for one index `i`: the button row, then the dynamic
form, then line 221, which shows the success message when the line-160
local was already rated or something was submitted in this pass so far. -/
def visitMsg (ctx : RenderCtx) (e : FbEvent) (acc : PassResult) (i : Nat) : PassResult :=
  match ctx.msgs.get? i with
  | none => acc
  | some m =>
    if m.role = "assistant" then
      let fstatus := acc.state.status i
      let step := formPhase ctx e m i (buttonPhase e acc.state i)
      let ackHere := if fstatus = .unrated then acc.justSubmitted || step.2.2.2 else true
      { state := step.1
        formsShown := acc.formsShown ++ step.2.1
        acksShown := acc.acksShown ++ (if ackHere then [i] else [])
        dispatched := acc.dispatched ++ step.2.2.1
        justSubmitted := acc.justSubmitted || step.2.2.2 }
    else acc

/-- One full rerun of the display loop (lines 143-222) while the user
interaction `e` is being processed. -/
def renderPass (ctx : RenderCtx) (s : FbState) (e : FbEvent) : PassResult :=
  (List.range ctx.msgs.length).foldl (visitMsg ctx e)
    { state := s, formsShown := [], acksShown := [], dispatched := [], justSubmitted := false }

/-- The four spec-level feedback states of one assistant message, read
off the session variables: the code stores no separate "submitted" flag;
a message is in the terminal visual state exactly when it carries a
rating but is not the pending form target (its form is gone, only the
static acknowledgment renders). -/
inductive SpecFbState where
  | unset
  | ratedUp
  | ratedDown
  | submitted
deriving DecidableEq, Repr

def msgState (s : FbState) (i : Nat) : SpecFbState :=
  match s.status i with
  | .unrated => .unset
  | .thumbsUp => if s.pending = some i then .ratedUp else .submitted
  | .thumbsDown => if s.pending = some i then .ratedDown else .submitted

/-! ## Decoded shapes of the stream/body lines the claims speak about -/

/-- Decoded form of an OpenAI-style streaming line
`{"choices":[{"delta":{"content": c}}]}`. -/
def deltaJson (c : String) : Json :=
  .obj [("choices", .arr [.obj [("delta", .obj [("content", .str c)])]])]

/-- Decoded form of a full-response body
`{"choices":[{"message":{"content": c}}]}`. -/
def msgJson (c : String) : Json :=
  .obj [("choices", .arr [.obj [("message", .obj [("content", .str c)])]])]

/-- Decoded form of `{"response": c}`. -/
def respJson (c : String) : Json := .obj [("response", .str c)]

/-- Decoded form of `{"text": c}`. -/
def textJson (c : String) : Json := .obj [("text", .str c)]

/-- Concatenation of a fragment list, in order. -/
def concatAll : List String → String
  | [] => ""
  | c :: cs => c ++ concatAll cs

/-! ## Concrete data used by counterexamples and witnesses -/

def exMsgs : List Msg :=
  [{ role := "user", content := "q1" }, { role := "assistant", content := "a1" },
   { role := "user", content := "q2" }, { role := "assistant", content := "a3" }]

def exCtx : RenderCtx :=
  { msgs := exMsgs, commentText := fun _ => "needs work", categoryChoice := fun _ => "other" }

/-- Message 1 rated thumbs-down with its form still open. -/
def overwriteSt : FbState :=
  { status := fun j => if j = 1 then .thumbsDown else .unrated, pending := some 1 }

/-- A history with two consecutive assistant messages (the corrupted
shape the spec itself contemplates). -/
def corruptMsgs : List Msg :=
  [{ role := "user", content := "A" }, { role := "assistant", content := "X" },
   { role := "assistant", content := "Y" }]

def corruptCtx : RenderCtx :=
  { msgs := corruptMsgs, commentText := fun _ => "", categoryChoice := fun _ => "" }

/-- Message 2 of `corruptMsgs` rated thumbs-down, form open. -/
def corruptSt : FbState :=
  { status := fun j => if j = 2 then .thumbsDown else .unrated, pending := some 2 }

/-- Message 1 rated thumbs-down with the form already submitted
(pending slot cleared). -/
def submittedSt : FbState :=
  { status := fun j => if j = 1 then .thumbsDown else .unrated, pending := none }

/-- The feedback record a form submission for message `k` dispatches,
as a function of the stored rating (lines 196-199 and 214-217). -/
def submitRecord (ctx : RenderCtx) (k : Nat) (m : Msg) : FbStatus → List FeedbackRecord
  | .thumbsDown => [mkRecord ctx k m.content "thumbs_down" (ctx.categoryChoice k)]
  | .thumbsUp => [mkRecord ctx k m.content "thumbs_up" ""]
  | .unrated => []

/-! # Theorems -/

/-! ## String helpers -/

theorem str_append_empty (s : String) : s ++ "" = s := by
  cases s with
  | mk data =>
    show String.mk (data ++ []) = String.mk data
    rw [List.append_nil]

theorem str_empty_append (s : String) : "" ++ s = s := by
  cases s with
  | mk data => rfl

theorem str_append_assoc (a b c : String) : a ++ b ++ c = a ++ (b ++ c) := by
  cases a with
  | mk da =>
    cases b with
    | mk db =>
      cases c with
      | mk dc =>
        show String.mk (da ++ db ++ dc) = String.mk (da ++ (db ++ dc))
        rw [List.append_assoc]

/-! ## Stream loop lemmas -/

theorem except_ok_bind {ε α β : Type} (a : α) (f : α → Except ε β) :
    (Except.ok a : Except ε α) >>= f = f a := rfl

theorem json_parse_empty : Json.parse "" = none := rfl

theorem json_parse_done : Json.parse "[DONE]" = none := rfl

/-- Any line `json.loads` rejects — blank or not — leaves the loop state
untouched (`continue`). -/
theorem processLine_skip (g : String) (s : StreamSt) (hg : Json.parse g = none) :
    processLine g s = .ok s := by
  unfold processLine
  by_cases h : g = ""
  · rw [if_pos h]
  · rw [if_neg h, hg]

/-- A line decoding to the streaming-delta shape with non-empty content
appends exactly that content. -/
theorem processLine_delta (l c : String) (s : StreamSt)
    (hp : Json.parse l = some (deltaJson c)) (hc : c ≠ "") :
    processLine l s = .ok { got := true, reply := s.reply ++ c, frags := s.frags ++ [c] } := by
  have hne : l ≠ "" := by
    intro h
    rw [h, json_parse_empty] at hp
    exact Option.noConfusion hp
  unfold processLine
  rw [if_neg hne, hp]
  simp [deltaJson, except_ok_bind, pyInChoices, pySubscriptKey, objGet, pyLen, pyIndexZero,
    pyGet, pyTruthy, isStrChoices, hc]

/-- A line decoding to the full-message shape yields nothing: the loop
only reads `choices[0].delta.content`, and `.get("delta", {})` returns
the empty dict here, whose `"content"` default `""` is falsy. -/
theorem processLine_message (l c : String) (s : StreamSt)
    (hp : Json.parse l = some (msgJson c)) :
    processLine l s = .ok s := by
  have hne : l ≠ "" := by
    intro h
    rw [h, json_parse_empty] at hp
    exact Option.noConfusion hp
  unfold processLine
  rw [if_neg hne, hp]
  simp [msgJson, except_ok_bind, pyInChoices, pySubscriptKey, objGet, pyLen, pyIndexZero,
    pyGet, pyTruthy, isStrChoices]

/-- A line decoding to `{"response": c}` yields nothing: no `"choices"`
key, the loop body is skipped. -/
theorem processLine_response (l c : String) (s : StreamSt)
    (hp : Json.parse l = some (respJson c)) :
    processLine l s = .ok s := by
  have hne : l ≠ "" := by
    intro h
    rw [h, json_parse_empty] at hp
    exact Option.noConfusion hp
  unfold processLine
  rw [if_neg hne, hp]
  simp [respJson, except_ok_bind, pyInChoices]

/-- A line decoding to `{"text": c}` yields nothing. -/
theorem processLine_text (l c : String) (s : StreamSt)
    (hp : Json.parse l = some (textJson c)) :
    processLine l s = .ok s := by
  have hne : l ≠ "" := by
    intro h
    rw [h, json_parse_empty] at hp
    exact Option.noConfusion hp
  unfold processLine
  rw [if_neg hne, hp]
  simp [textJson, except_ok_bind, pyInChoices]

theorem consumeFrom_nil (s : StreamSt) : consumeFrom s [] = .ok s := rfl

theorem consumeFrom_cons (s : StreamSt) (l : String) (ls : List String) :
    consumeFrom s (l :: ls) = processLine l s >>= fun s2 => consumeFrom s2 ls := rfl

/-- Folding the loop over delta-shaped lines followed by the `[DONE]`
sentinel, from an arbitrary loop state. -/
theorem consumeFrom_deltaLines (lines cs : List String)
    (h : List.Forall₂ (fun l c => Json.parse l = some (deltaJson c) ∧ c ≠ "") lines cs)
    (s : StreamSt) :
    consumeFrom s (lines ++ ["[DONE]"]) =
      .ok { got := s.got || !cs.isEmpty, reply := s.reply ++ concatAll cs,
            frags := s.frags ++ cs } := by
  induction h generalizing s with
  | nil =>
    rw [List.nil_append, consumeFrom_cons,
      processLine_skip "[DONE]" s json_parse_done]
    rw [except_ok_bind, consumeFrom_nil]
    simp [concatAll, str_append_empty]
  | @cons l c ls cs2 hlc _ ih =>
    rw [List.cons_append, consumeFrom_cons, processLine_delta l c s hlc.1 hlc.2,
      except_ok_bind, ih]
    simp [concatAll, str_append_assoc, Bool.or_true]

/-- A delta-shaped line with empty content yields nothing (`""` is falsy). -/
theorem processLine_delta_empty (l : String) (s : StreamSt)
    (hp : Json.parse l = some (deltaJson "")) :
    processLine l s = .ok s := by
  have hne : l ≠ "" := by
    intro h
    rw [h, json_parse_empty] at hp
    exact Option.noConfusion hp
  unfold processLine
  rw [if_neg hne, hp]
  simp [deltaJson, except_ok_bind, pyInChoices, pySubscriptKey, objGet, pyLen, pyIndexZero,
    pyGet, pyTruthy, isStrChoices]

/-! ## C1 — SSE framing of the stream -/

/-- C1 is false on this code: the loop never strips a `data: ` prefix and
never tests for `[DONE]`; an SSE-framed stream `data: {...}` + `[DONE]`
produces zero fragments (every line fails `json.loads` and is skipped),
not the fragment `"Hello"` the claim requires. -/
theorem C1_counterexample :
    consumeLines ["data: \x7b\"choices\":[\x7b\"delta\":\x7b\"content\":\"Hello\"\x7d\x7d]\x7d",
                  "[DONE]"]
      = .ok { got := false, reply := "", frags := [] } ∧
    ([] : List String) ≠ ["Hello"] :=
  ⟨rfl, by decide⟩

/-- C1 (amended): blank lines are skipped, but no `data: ` prefix is
stripped and `[DONE]` is not an early-stop marker — both fail `json.loads`
and are silently skipped.  For a finite stream of bare JSON delta lines
followed by the line `[DONE]`, the loop yields exactly the concatenation
of the per-line `choices[0].delta.content` fields, in order, running to
the end of the stream. -/
theorem C1_stream_lines (lines cs : List String)
    (h : List.Forall₂ (fun l c => Json.parse l = some (deltaJson c) ∧ c ≠ "") lines cs) :
    consumeLines (lines ++ ["[DONE]"]) =
      .ok { got := !cs.isEmpty, reply := concatAll cs, frags := cs } := by
  rw [consumeLines, consumeFrom_deltaLines lines cs h]
  simp [str_empty_append]

theorem C1_stream_lines_witness :
    consumeLines (["\x7b\"choices\":[\x7b\"delta\":\x7b\"content\":\"Hello\"\x7d\x7d]\x7d",
                   "\x7b\"choices\":[\x7b\"delta\":\x7b\"content\":\" there\"\x7d\x7d]\x7d"]
                  ++ ["[DONE]"]) =
      .ok { got := !(["Hello", " there"] : List String).isEmpty,
            reply := concatAll ["Hello", " there"], frags := ["Hello", " there"] } :=
  C1_stream_lines _ ["Hello", " there"]
    (List.Forall₂.cons ⟨rfl, by decide⟩ (List.Forall₂.cons ⟨rfl, by decide⟩ List.Forall₂.nil))

/-! ## C4 — per-line content extraction -/

/-- C4 is false on this code: the loop reads only
`choices[0].delta.content`; lines carrying `choices[0].message.content`,
a top-level `response`, or a top-level `text` field yield nothing, where
the claim requires each to yield `"hi"`. -/
theorem C4_counterexample :
    consumeLines ["\x7b\"choices\":[\x7b\"message\":\x7b\"content\":\"hi\"\x7d\x7d]\x7d"]
      = .ok { got := false, reply := "", frags := [] } ∧
    consumeLines ["\x7b\"response\":\"hi\"\x7d"]
      = .ok { got := false, reply := "", frags := [] } ∧
    consumeLines ["\x7b\"text\":\"hi\"\x7d"]
      = .ok { got := false, reply := "", frags := [] } ∧
    ([] : List String) ≠ ["hi"] :=
  ⟨rfl, rfl, rfl, by decide⟩

/-- C4 (amended): the per-line extraction consults only
`choices[0].delta.content` and yields exactly when that value is
non-empty; the message/response/text shapes are not consulted on the
per-line path (message content is only used by the non-streaming
fallback). -/
theorem C4_delta_only (l c : String) (s : StreamSt) :
    (Json.parse l = some (deltaJson c) → c ≠ "" →
      processLine l s = .ok { got := true, reply := s.reply ++ c, frags := s.frags ++ [c] }) ∧
    (Json.parse l = some (deltaJson "") → processLine l s = .ok s) ∧
    (Json.parse l = some (msgJson c) → processLine l s = .ok s) ∧
    (Json.parse l = some (respJson c) → processLine l s = .ok s) ∧
    (Json.parse l = some (textJson c) → processLine l s = .ok s) :=
  ⟨fun hp hc => processLine_delta l c s hp hc,
   fun hp => processLine_delta_empty l s hp,
   fun hp => processLine_message l c s hp,
   fun hp => processLine_response l c s hp,
   fun hp => processLine_text l c s hp⟩

theorem C4_delta_only_witness :
    processLine "\x7b\"choices\":[\x7b\"delta\":\x7b\"content\":\"hi\"\x7d\x7d]\x7d"
        { got := false, reply := "", frags := [] }
      = .ok { got := true, reply := "" ++ "hi", frags := [] ++ ["hi"] } ∧
    processLine "\x7b\"choices\":[\x7b\"message\":\x7b\"content\":\"hi\"\x7d\x7d]\x7d"
        { got := false, reply := "", frags := [] }
      = .ok { got := false, reply := "", frags := [] } :=
  ⟨(C4_delta_only _ "hi" _).1 rfl (by decide), (C4_delta_only _ "hi" _).2.2.1 rfl⟩

/-! ## C8 — lines that are not valid JSON -/

/-- C8: a line `json.loads` rejects is silently discarded by the
`except json.JSONDecodeError: continue` handler, without halting the
sequence: dropping it from the stream changes nothing, and one garbage
line between two valid delta fragments yields exactly the two valid
fragments. -/
theorem C8_garbage_skipped :
    (∀ g s, Json.parse g = none → processLine g s = Except.ok s) ∧
    (∀ (xs : List String) s (ys : List String) g, Json.parse g = none →
       consumeFrom s (xs ++ g :: ys) = consumeFrom s (xs ++ ys)) ∧
    (∀ l1 g l2 c1 c2, Json.parse l1 = some (deltaJson c1) → c1 ≠ "" →
       Json.parse g = none → Json.parse l2 = some (deltaJson c2) → c2 ≠ "" →
       consumeLines [l1, g, l2] =
         .ok { got := true, reply := c1 ++ c2, frags := [c1, c2] }) := by
  refine ⟨fun g s hg => processLine_skip g s hg, ?_, ?_⟩
  · intro xs
    induction xs with
    | nil =>
      intro s ys g hg
      rw [List.nil_append, List.nil_append, consumeFrom_cons, processLine_skip g s hg,
        except_ok_bind]
    | cons x xs ih =>
      intro s ys g hg
      rw [List.cons_append, List.cons_append, consumeFrom_cons, consumeFrom_cons]
      cases hx : processLine x s with
      | error e => rfl
      | ok s2 => rw [except_ok_bind, except_ok_bind, ih s2 ys g hg]
  · intro l1 g l2 c1 c2 h1 hc1 hg h2 hc2
    rw [consumeLines, consumeFrom_cons, processLine_delta l1 c1 _ h1 hc1, except_ok_bind,
      consumeFrom_cons, processLine_skip g _ hg, except_ok_bind,
      consumeFrom_cons, processLine_delta l2 c2 _ h2 hc2, except_ok_bind, consumeFrom_nil]
    simp [str_empty_append]

theorem C8_garbage_skipped_witness :
    consumeLines ["\x7b\"choices\":[\x7b\"delta\":\x7b\"content\":\"Hel\"\x7d\x7d]\x7d",
                  ": keep-alive",
                  "\x7b\"choices\":[\x7b\"delta\":\x7b\"content\":\"lo\"\x7d\x7d]\x7d"] =
      .ok { got := true, reply := "Hel" ++ "lo", frags := ["Hel", "lo"] } :=
  C8_garbage_skipped.2.2 _ _ _ "Hel" "lo" rfl (by decide) rfl rfl (by decide)

/-! ## C5 — non-streaming fallback -/

/-- The fallback never finalizes a reply: with `got_streaming` false the
consumed-content RuntimeError from `response.json()` is caught, and the
handler's `response.text` raises it again, uncaught. -/
theorem finalizeReply_no_stream (st : StreamSt) (h : st.got = false) :
    finalizeReply st = .error .runtimeError := by
  unfold finalizeReply
  rw [h]
  rfl

/-- C5 is false on this code: with zero streamed fragments the fallback
cannot read the buffered body at all — `iter_lines()` has already
consumed the stream, so `response.json()` (line 117) raises RuntimeError,
`except Exception` catches it, and `response.text` (line 125) raises it
again, uncaught.  At the claim's own input the turn aborts with the
error; no reply `"hello"` (and no reply at all) is finalized. -/
theorem C5_counterexample :
    runTurn [] "Hi"
      (.response 200 "\x7b\"choices\":[\x7b\"message\":\x7b\"content\":\"hello\"\x7d\x7d]\x7d"
        []) = .error .runtimeError ∧
    (Except.error PyErr.runtimeError : Except PyErr (List Msg)) ≠
      .ok [{ role := "user", content := "Hi" },
           { role := "assistant", content := "hello" }] :=
  ⟨rfl, fun hco => Except.noConfusion hco⟩

/-- C5 (amended): the re-interpretation of the buffered body is dead
code: once the stream loop has exhausted `iter_lines()`, the full-JSON
re-read raises the consumed-content RuntimeError (line 117, caught by
`except Exception`), and the handler's raw-body read raises it again
(line 125, uncaught) — so whenever zero incremental fragments were
observed, no reply is finalized and the rerun aborts with the
RuntimeError. -/
theorem C5_fallback :
    (response_json_consumed = (.error .runtimeError : Except PyErr Json)) ∧
    (response_text_consumed = (.error .runtimeError : Except PyErr String)) ∧
    (fallbackReply = .error .runtimeError) ∧
    (∀ st : StreamSt, st.got = false → finalizeReply st = .error .runtimeError) :=
  ⟨rfl, rfl, rfl, fun st h => finalizeReply_no_stream st h⟩

theorem C5_fallback_witness :
    finalizeReply { got := false, reply := "", frags := [] } = .error .runtimeError :=
  C5_fallback.2.2.2 { got := false, reply := "", frags := [] } rfl

/-! ## C6 — connection-level failure -/

/-- C6: a `requests.exceptions.RequestException` while contacting the
endpoint produces exactly one inline error fragment carrying the
exception description, substituted for the reply and appended to the
conversation history; nothing is retried. -/
theorem C6_connection_error (messages : List Msg) (userInput e : String) :
    runTurn messages userInput (.connError e) =
      .ok (messages ++ [{ role := "user", content := userInput },
                        { role := "assistant", content := "❌ Connection error: " ++ e }]) := by
  simp [runTurn]

/-! ## C7 — stream yields nothing usable -/

/-- C7 is false on this code: the string `"Model returned no content."`
does not occur, and no placeholder is substituted at all — with an empty
stream the fallback re-read of the consumed body raises RuntimeError
(caught at line 117, uncaught at line 125), so the turn aborts with the
error and no assistant message is appended. -/
theorem C7_counterexample :
    runTurn [] "Hi" (.response 200 "" []) = .error .runtimeError ∧
    (Except.error PyErr.runtimeError : Except PyErr (List Msg)) ≠
      .ok [{ role := "user", content := "Hi" },
           { role := "assistant", content := "Model returned no content." }] :=
  ⟨rfl, fun hco => Except.noConfusion hco⟩

/-- C7 (amended): when the stream yields nothing usable end-to-end, no
placeholder text is substituted for the reply: the fallback raises an
uncaught RuntimeError (the consumed-content error of the requests
library), the rerun aborts, and nothing is appended to the conversation
history. -/
theorem C7_no_substitution (messages : List Msg) (userInput text : String)
    (lines : List String) (st : StreamSt)
    (h1 : consumeLines lines = .ok st) (h2 : st.got = false) :
    runTurn messages userInput (.response 200 text lines) = .error .runtimeError := by
  unfold runTurn
  dsimp only
  rw [if_neg (by decide : ¬ (200 : Nat) ≠ 200), h1, except_ok_bind,
    finalizeReply_no_stream st h2]
  rfl

theorem C7_no_substitution_witness :
    runTurn [] "Hi" (.response 200 "stale body" ["junk line"]) = .error .runtimeError :=
  C7_no_substitution [] "Hi" "stale body" ["junk line"]
    { got := false, reply := "", frags := [] } rfl rfl

/-! ## Render pass lemmas -/

theorem setStatus_status_self (s : FbState) (i : Nat) (v : FbStatus) :
    (setStatus s i v).status i = v := by
  simp [setStatus]

theorem setStatus_status_ne (s : FbState) (i j : Nat) (v : FbStatus) (h : j ≠ i) :
    (setStatus s i v).status j = s.status j := by
  simp [setStatus, h]

theorem buttonPhase_rated (e : FbEvent) (s : FbState) (i : Nat) (h : s.status i ≠ .unrated) :
    buttonPhase e s i = s := by
  unfold buttonPhase
  rw [if_neg h]

theorem buttonPhase_noClick (e : FbEvent) (s : FbState) (i : Nat)
    (h : e = .noEvent ∨ ∃ k, e = .submitForm k) :
    buttonPhase e s i = s := by
  unfold buttonPhase
  by_cases hst : s.status i = .unrated
  · rcases h with h | ⟨k, h⟩ <;> subst h <;> rw [if_pos hst]
  · rw [if_neg hst]

theorem buttonPhase_clickDown_ne (k : Nat) (s : FbState) (i : Nat) (h : k ≠ i) :
    buttonPhase (.clickDown k) s i = s := by
  unfold buttonPhase
  by_cases hst : s.status i = .unrated
  · rw [if_pos hst]
    exact if_neg h
  · rw [if_neg hst]

theorem buttonPhase_clickDown_eq (s : FbState) (i : Nat) (h : s.status i = .unrated) :
    buttonPhase (.clickDown i) s i = { setStatus s i .thumbsDown with pending := some i } := by
  unfold buttonPhase
  rw [if_pos h]
  exact if_pos rfl

/-- The button row either leaves the state alone or rates the visited
message (possible only from unrated) and makes it pending. -/
theorem buttonPhase_shape (e : FbEvent) (s : FbState) (i : Nat) :
    buttonPhase e s i = s ∨
    (s.status i = .unrated ∧ ∃ v, v ≠ FbStatus.unrated ∧
      buttonPhase e s i = { setStatus s i v with pending := some i }) := by
  unfold buttonPhase
  by_cases hst : s.status i = .unrated
  · rw [if_pos hst]
    cases e with
    | clickUp j =>
      by_cases hj : j = i
      · subst hj
        exact Or.inr ⟨hst, .thumbsUp, by decide, if_pos rfl⟩
      · exact Or.inl (if_neg hj)
    | clickDown j =>
      by_cases hj : j = i
      · subst hj
        exact Or.inr ⟨hst, .thumbsDown, by decide, if_pos rfl⟩
      · exact Or.inl (if_neg hj)
    | submitForm j => exact Or.inl rfl
    | noEvent => exact Or.inl rfl
  · exact Or.inl (if_neg hst)

theorem formPhase_not_pending (ctx : RenderCtx) (e : FbEvent) (m : Msg) (i : Nat) (s1 : FbState)
    (h : s1.pending ≠ some i) :
    formPhase ctx e m i s1 = (s1, [], [], false) := by
  unfold formPhase
  rw [if_neg h]

/-- The form block leaves the state alone or only clears the pending slot. -/
theorem formPhase_state_shape (ctx : RenderCtx) (e : FbEvent) (m : Msg) (i : Nat) (s1 : FbState) :
    (formPhase ctx e m i s1).1 = s1 ∨
    (formPhase ctx e m i s1).1 = { s1 with pending := none } := by
  unfold formPhase
  by_cases hp : s1.pending = some i
  · rw [if_pos hp]
    cases hst : s1.status i with
    | unrated => exact Or.inl rfl
    | thumbsUp =>
      by_cases he : e = .submitForm i
      · right
        simp [he]
      · left
        simp [he]
    | thumbsDown =>
      by_cases he : e = .submitForm i
      · right
        simp [he]
      · left
        simp [he]
  · rw [if_neg hp]
    exact Or.inl rfl

/-- The form block renders a form only for the pending, already-rated
message. -/
theorem formPhase_forms (ctx : RenderCtx) (e : FbEvent) (m : Msg) (i : Nat) (s1 : FbState) :
    (formPhase ctx e m i s1).2.1 = [] ∨
    ((formPhase ctx e m i s1).2.1 = [i] ∧ s1.pending = some i ∧ s1.status i ≠ .unrated) := by
  unfold formPhase
  by_cases hp : s1.pending = some i
  · rw [if_pos hp]
    cases hst : s1.status i with
    | unrated => exact Or.inl rfl
    | thumbsUp =>
      refine Or.inr ⟨?_, hp, by decide⟩
      by_cases he : e = .submitForm i <;> simp [he]
    | thumbsDown =>
      refine Or.inr ⟨?_, hp, by decide⟩
      by_cases he : e = .submitForm i <;> simp [he]
  · rw [if_neg hp]
    exact Or.inl rfl

/-- Without a submission event for this very message the form block
changes no state and dispatches nothing. -/
theorem formPhase_noSubmit (ctx : RenderCtx) (e : FbEvent) (m : Msg) (i : Nat) (s1 : FbState)
    (h : e ≠ .submitForm i) :
    (formPhase ctx e m i s1).1 = s1 ∧ (formPhase ctx e m i s1).2.2.1 = [] := by
  unfold formPhase
  by_cases hp : s1.pending = some i
  · rw [if_pos hp]
    cases hst : s1.status i with
    | unrated => exact ⟨rfl, rfl⟩
    | thumbsUp => refine ⟨?_, ?_⟩ <;> simp [h]
    | thumbsDown => refine ⟨?_, ?_⟩ <;> simp [h]
  · rw [if_neg hp]
    exact ⟨rfl, rfl⟩

/-- A submission for the pending rated message clears the pending slot
and dispatches exactly the one matching record. -/
theorem formPhase_submit_eq (ctx : RenderCtx) (m : Msg) (i : Nat) (s1 : FbState)
    (hp : s1.pending = some i) (hs : s1.status i ≠ .unrated) :
    formPhase ctx (.submitForm i) m i s1 =
      ({ s1 with pending := none }, [i], submitRecord ctx i m (s1.status i), true) := by
  unfold formPhase
  rw [if_pos hp]
  cases hst : s1.status i with
  | unrated => exact absurd hst hs
  | thumbsUp => simp [submitRecord]
  | thumbsDown => simp [submitRecord]

/-- No form and no action for a message whose rating is still unrated
after the button row. -/
theorem formPhase_unrated (ctx : RenderCtx) (e : FbEvent) (m : Msg) (i : Nat) (s1 : FbState)
    (h : s1.status i = .unrated) :
    formPhase ctx e m i s1 = (s1, [], [], false) := by
  unfold formPhase
  by_cases hp : s1.pending = some i
  · rw [if_pos hp]
    simp [h]
  · rw [if_neg hp]

theorem visit_none (ctx : RenderCtx) (e : FbEvent) (acc : PassResult) (i : Nat)
    (h : ctx.msgs.get? i = none) :
    visitMsg ctx e acc i = acc := by
  unfold visitMsg
  rw [h]

theorem visit_notAssistant (ctx : RenderCtx) (e : FbEvent) (acc : PassResult) (i : Nat) (m : Msg)
    (hg : ctx.msgs.get? i = some m) (h : ¬ m.role = "assistant") :
    visitMsg ctx e acc i = acc := by
  unfold visitMsg
  rw [hg]
  dsimp only
  rw [if_neg h]

theorem visit_state (ctx : RenderCtx) (e : FbEvent) (acc : PassResult) (i : Nat) (m : Msg)
    (hg : ctx.msgs.get? i = some m) (hrole : m.role = "assistant") :
    (visitMsg ctx e acc i).state = (formPhase ctx e m i (buttonPhase e acc.state i)).1 := by
  unfold visitMsg
  rw [hg]
  dsimp only
  rw [if_pos hrole]

theorem visit_forms (ctx : RenderCtx) (e : FbEvent) (acc : PassResult) (i : Nat) (m : Msg)
    (hg : ctx.msgs.get? i = some m) (hrole : m.role = "assistant") :
    (visitMsg ctx e acc i).formsShown =
      acc.formsShown ++ (formPhase ctx e m i (buttonPhase e acc.state i)).2.1 := by
  unfold visitMsg
  rw [hg]
  dsimp only
  rw [if_pos hrole]

theorem visit_dispatched (ctx : RenderCtx) (e : FbEvent) (acc : PassResult) (i : Nat) (m : Msg)
    (hg : ctx.msgs.get? i = some m) (hrole : m.role = "assistant") :
    (visitMsg ctx e acc i).dispatched =
      acc.dispatched ++ (formPhase ctx e m i (buttonPhase e acc.state i)).2.2.1 := by
  unfold visitMsg
  rw [hg]
  dsimp only
  rw [if_pos hrole]

theorem visit_acks (ctx : RenderCtx) (e : FbEvent) (acc : PassResult) (i : Nat) (m : Msg)
    (hg : ctx.msgs.get? i = some m) (hrole : m.role = "assistant") :
    (visitMsg ctx e acc i).acksShown =
      acc.acksShown ++
        (if (if acc.state.status i = .unrated then
               acc.justSubmitted || (formPhase ctx e m i (buttonPhase e acc.state i)).2.2.2
             else true) then [i] else []) := by
  unfold visitMsg
  rw [hg]
  dsimp only
  rw [if_pos hrole]

/-- Line 221 shows the acknowledgment for an already-rated message. -/
theorem visit_ack_at (ctx : RenderCtx) (e : FbEvent) (acc : PassResult) (i : Nat) (m : Msg)
    (hg : ctx.msgs.get? i = some m) (hrole : m.role = "assistant")
    (h1 : acc.state.status i ≠ .unrated) :
    i ∈ (visitMsg ctx e acc i).acksShown := by
  rw [visit_acks ctx e acc i m hg hrole, if_neg h1]
  simp

/-- One visit preserves "rated but not pending" for any message `i`, never
renders the form of such a message, and only appends to the shown
acknowledgments. -/
theorem visit_submitted_inv (ctx : RenderCtx) (e : FbEvent) (acc : PassResult) (i j : Nat)
    (h1 : acc.state.status i ≠ .unrated) (h2 : acc.state.pending ≠ some i) :
    ((visitMsg ctx e acc j).state.status i ≠ .unrated ∧
     (visitMsg ctx e acc j).state.pending ≠ some i) ∧
    (∀ x ∈ (visitMsg ctx e acc j).formsShown, x ∈ acc.formsShown ∨ x ≠ i) ∧
    (∀ x ∈ acc.acksShown, x ∈ (visitMsg ctx e acc j).acksShown) := by
  cases hgj : ctx.msgs.get? j with
  | none =>
    rw [visit_none ctx e acc j hgj]
    exact ⟨⟨h1, h2⟩, fun x hx => Or.inl hx, fun x hx => hx⟩
  | some mj =>
    by_cases hrj : mj.role = "assistant"
    case neg =>
      rw [visit_notAssistant ctx e acc j mj hgj hrj]
      exact ⟨⟨h1, h2⟩, fun x hx => Or.inl hx, fun x hx => hx⟩
    case pos =>
      have hs1 : (buttonPhase e acc.state j).status i ≠ .unrated ∧
          (buttonPhase e acc.state j).pending ≠ some i := by
        rcases buttonPhase_shape e acc.state j with hb | ⟨hunr, v, hv, hb⟩
        · rw [hb]
          exact ⟨h1, h2⟩
        · have hij : i ≠ j := fun hco => h1 (hco ▸ hunr)
          rw [hb]
          refine ⟨?_, ?_⟩
          · show (setStatus acc.state j v).status i ≠ .unrated
            rw [setStatus_status_ne acc.state j i v hij]
            exact h1
          · intro hco
            exact hij (Option.some.inj hco).symm
      refine ⟨?_, ?_, ?_⟩
      · rw [visit_state ctx e acc j mj hgj hrj]
        rcases formPhase_state_shape ctx e mj j (buttonPhase e acc.state j) with hf | hf <;>
          rw [hf]
        · exact hs1
        · exact ⟨hs1.1, fun hco => Option.noConfusion hco⟩
      · intro x hx
        rw [visit_forms ctx e acc j mj hgj hrj] at hx
        rcases List.mem_append.mp hx with hx | hx
        · exact Or.inl hx
        · rcases formPhase_forms ctx e mj j (buttonPhase e acc.state j) with hf | ⟨hf, hfp, _⟩
          · rw [hf] at hx
            exact absurd hx (List.not_mem_nil x)
          · rw [hf] at hx
            have hxj : x = j := List.mem_singleton.mp hx
            subst hxj
            refine Or.inr (fun hco => ?_)
            subst hco
            exact hs1.2 hfp
      · intro x hx
        rw [visit_acks ctx e acc j mj hgj hrj]
        exact List.mem_append_left _ hx

/-- Without a rating click, one visit keeps the pending slot (or clears
it), and renders a form only for the message the pending slot pointed at
when the pass began. -/
theorem visit_noclick_pf (ctx : RenderCtx) (e : FbEvent) (acc : PassResult) (j : Nat)
    (he : e = .noEvent ∨ ∃ k, e = .submitForm k) :
    ((visitMsg ctx e acc j).state.pending = acc.state.pending ∨
     (visitMsg ctx e acc j).state.pending = none) ∧
    (∀ x ∈ (visitMsg ctx e acc j).formsShown,
       x ∈ acc.formsShown ∨ acc.state.pending = some x) := by
  cases hgj : ctx.msgs.get? j with
  | none =>
    rw [visit_none ctx e acc j hgj]
    exact ⟨Or.inl rfl, fun x hx => Or.inl hx⟩
  | some mj =>
    by_cases hrj : mj.role = "assistant"
    case neg =>
      rw [visit_notAssistant ctx e acc j mj hgj hrj]
      exact ⟨Or.inl rfl, fun x hx => Or.inl hx⟩
    case pos =>
      have hb : buttonPhase e acc.state j = acc.state := buttonPhase_noClick e acc.state j he
      refine ⟨?_, ?_⟩
      · rw [visit_state ctx e acc j mj hgj hrj, hb]
        rcases formPhase_state_shape ctx e mj j acc.state with hf | hf <;> rw [hf]
        · exact Or.inl rfl
        · exact Or.inr rfl
      · intro x hx
        rw [visit_forms ctx e acc j mj hgj hrj, hb] at hx
        rcases List.mem_append.mp hx with hx | hx
        · exact Or.inl hx
        · rcases formPhase_forms ctx e mj j acc.state with hf | ⟨hf, hfp, _⟩
          · rw [hf] at hx
            exact absurd hx (List.not_mem_nil x)
          · rw [hf] at hx
            have hxj : x = j := List.mem_singleton.mp hx
            subst hxj
            exact Or.inr hfp

/-! ## Whole-pass characterizations -/

/-- A rating click on assistant message `k` rates exactly `k` and points
the pending slot at it; every other part of the session state is kept. -/
theorem fold_state_clickDown (ctx : RenderCtx) (k : Nat) (m : Msg)
    (hg : ctx.msgs.get? k = some m) (hrole : m.role = "assistant") (l : List Nat) :
    ∀ acc : PassResult,
      (l.foldl (visitMsg ctx (.clickDown k)) acc).state =
        if k ∈ l ∧ acc.state.status k = .unrated then
          { setStatus acc.state k .thumbsDown with pending := some k }
        else acc.state := by
  induction l with
  | nil =>
    intro acc
    simp
  | cons j l ih =>
    intro acc
    rw [List.foldl_cons]
    by_cases hjk : j = k
    · subst hjk
      by_cases hst : acc.state.status j = .unrated
      · have h1 : (visitMsg ctx (.clickDown j) acc j).state =
            { setStatus acc.state j .thumbsDown with pending := some j } := by
          rw [visit_state ctx _ acc j m hg hrole, buttonPhase_clickDown_eq acc.state j hst]
          exact (formPhase_noSubmit ctx _ m j _ (by simp)).1
        have h2 : ({ setStatus acc.state j .thumbsDown with
            pending := some j } : FbState).status j = .thumbsDown := by
          simp [setStatus]
        rw [ih, h1, if_neg (fun hco => by rw [h2] at hco; exact absurd hco.2 (by decide)),
          if_pos ⟨List.mem_cons_self j l, hst⟩]
      · have h1 : (visitMsg ctx (.clickDown j) acc j).state = acc.state := by
          rw [visit_state ctx _ acc j m hg hrole, buttonPhase_rated _ _ _ hst]
          exact (formPhase_noSubmit ctx _ m j _ (by simp)).1
        rw [ih, h1, if_neg (fun hco => hst hco.2), if_neg (fun hco => hst hco.2)]
    · have h1 : (visitMsg ctx (.clickDown k) acc j).state = acc.state := by
        cases hgj : ctx.msgs.get? j with
        | none => rw [visit_none ctx _ acc j hgj]
        | some mj =>
          by_cases hrj : mj.role = "assistant"
          · rw [visit_state ctx _ acc j mj hgj hrj,
              buttonPhase_clickDown_ne k acc.state j (fun hco => hjk hco.symm)]
            exact (formPhase_noSubmit ctx _ mj j _ (by simp)).1
          · rw [visit_notAssistant ctx _ acc j mj hgj hrj]
      have hmem : k ∈ j :: l ↔ k ∈ l := by
        constructor
        · intro hx
          rcases List.mem_cons.mp hx with hx | hx
          · exact absurd hx.symm hjk
          · exact hx
        · exact fun hx => List.mem_cons_of_mem j hx
      rw [ih, h1]
      by_cases hkl : k ∈ l ∧ acc.state.status k = .unrated
      · rw [if_pos hkl, if_pos ⟨hmem.mpr hkl.1, hkl.2⟩]
      · rw [if_neg hkl, if_neg (fun hco => hkl ⟨hmem.mp hco.1, hco.2⟩)]

/-- A form submission for the pending, rated assistant message `k` clears
the pending slot (and nothing else) and dispatches exactly the one
matching feedback record. -/
theorem fold_submit (ctx : RenderCtx) (k : Nat) (m : Msg)
    (hg : ctx.msgs.get? k = some m) (hrole : m.role = "assistant") (l : List Nat) :
    ∀ acc : PassResult,
      ((l.foldl (visitMsg ctx (.submitForm k)) acc).state =
        if k ∈ l ∧ acc.state.pending = some k ∧ acc.state.status k ≠ .unrated then
          { acc.state with pending := none }
        else acc.state) ∧
      ((l.foldl (visitMsg ctx (.submitForm k)) acc).dispatched =
        acc.dispatched ++
          (if k ∈ l ∧ acc.state.pending = some k ∧ acc.state.status k ≠ .unrated then
            submitRecord ctx k m (acc.state.status k)
          else [])) := by
  induction l with
  | nil =>
    intro acc
    constructor <;> simp
  | cons j l ih =>
    intro acc
    rw [List.foldl_cons]
    by_cases hjk : j = k
    · subst hjk
      by_cases hc : acc.state.pending = some j ∧ acc.state.status j ≠ .unrated
      · have hb : buttonPhase (.submitForm j) acc.state j = acc.state :=
          buttonPhase_noClick _ _ _ (Or.inr ⟨j, rfl⟩)
        have hf := formPhase_submit_eq ctx m j acc.state hc.1 hc.2
        have h1 : (visitMsg ctx (.submitForm j) acc j).state =
            { acc.state with pending := none } := by
          rw [visit_state ctx _ acc j m hg hrole, hb, hf]
        have h2 : (visitMsg ctx (.submitForm j) acc j).dispatched =
            acc.dispatched ++ submitRecord ctx j m (acc.state.status j) := by
          rw [visit_dispatched ctx _ acc j m hg hrole, hb, hf]
        obtain ⟨ihs, ihd⟩ := ih (visitMsg ctx (.submitForm j) acc j)
        have hcondf : ¬ (j ∈ l ∧ (visitMsg ctx (.submitForm j) acc j).state.pending = some j ∧
            (visitMsg ctx (.submitForm j) acc j).state.status j ≠ .unrated) := by
          intro hco
          rw [h1] at hco
          exact Option.noConfusion hco.2.1
        constructor
        · rw [ihs, if_neg hcondf, h1,
            if_pos ⟨List.mem_cons_self j l, hc.1, hc.2⟩]
        · rw [ihd, if_neg hcondf, h2,
            if_pos ⟨List.mem_cons_self j l, hc.1, hc.2⟩]
          simp
      · have h1 : (visitMsg ctx (.submitForm j) acc j).state = acc.state ∧
            (visitMsg ctx (.submitForm j) acc j).dispatched = acc.dispatched := by
          have hb : buttonPhase (.submitForm j) acc.state j = acc.state :=
            buttonPhase_noClick _ _ _ (Or.inr ⟨j, rfl⟩)
          by_cases hp : acc.state.pending = some j
          · have hu : acc.state.status j = .unrated := by
              by_contra hu
              exact hc ⟨hp, hu⟩
            constructor
            · rw [visit_state ctx _ acc j m hg hrole, hb, formPhase_unrated ctx _ m j _ hu]
            · rw [visit_dispatched ctx _ acc j m hg hrole, hb, formPhase_unrated ctx _ m j _ hu]
              simp
          · constructor
            · rw [visit_state ctx _ acc j m hg hrole, hb, formPhase_not_pending ctx _ m j _ hp]
            · rw [visit_dispatched ctx _ acc j m hg hrole, hb,
                formPhase_not_pending ctx _ m j _ hp]
              simp
        obtain ⟨ihs, ihd⟩ := ih (visitMsg ctx (.submitForm j) acc j)
        constructor
        · rw [ihs, h1.1, if_neg (fun hco => hc hco.2), if_neg (fun hco => hc hco.2)]
        · rw [ihd, h1.1, h1.2, if_neg (fun hco => hc hco.2), if_neg (fun hco => hc hco.2)]
    · have h1 : (visitMsg ctx (.submitForm k) acc j).state = acc.state ∧
          (visitMsg ctx (.submitForm k) acc j).dispatched = acc.dispatched := by
        cases hgj : ctx.msgs.get? j with
        | none =>
          rw [visit_none ctx _ acc j hgj]
          exact ⟨rfl, rfl⟩
        | some mj =>
          by_cases hrj : mj.role = "assistant"
          · have hb : buttonPhase (.submitForm k) acc.state j = acc.state :=
              buttonPhase_noClick _ _ _ (Or.inr ⟨k, rfl⟩)
            have hne : FbEvent.submitForm k ≠ FbEvent.submitForm j :=
              fun hco => hjk (FbEvent.submitForm.inj hco).symm
            constructor
            · rw [visit_state ctx _ acc j mj hgj hrj, hb]
              exact (formPhase_noSubmit ctx _ mj j _ hne).1
            · rw [visit_dispatched ctx _ acc j mj hgj hrj, hb,
                (formPhase_noSubmit ctx _ mj j _ hne).2]
              simp
          · rw [visit_notAssistant ctx _ acc j mj hgj hrj]
            exact ⟨rfl, rfl⟩
      have hmem : k ∈ j :: l ↔ k ∈ l := by
        constructor
        · intro hx
          rcases List.mem_cons.mp hx with hx | hx
          · exact absurd hx.symm hjk
          · exact hx
        · exact fun hx => List.mem_cons_of_mem j hx
      obtain ⟨ihs, ihd⟩ := ih (visitMsg ctx (.submitForm k) acc j)
      by_cases hkl : k ∈ l ∧ acc.state.pending = some k ∧ acc.state.status k ≠ .unrated
      · constructor
        · rw [ihs, h1.1, if_pos hkl, if_pos ⟨hmem.mpr hkl.1, hkl.2⟩]
        · rw [ihd, h1.1, h1.2, if_pos hkl, if_pos ⟨hmem.mpr hkl.1, hkl.2⟩]
      · constructor
        · rw [ihs, h1.1, if_neg hkl, if_neg (fun hco => hkl ⟨hmem.mp hco.1, hco.2⟩)]
        · rw [ihd, h1.1, h1.2, if_neg hkl, if_neg (fun hco => hkl ⟨hmem.mp hco.1, hco.2⟩)]

/-- In a pass without a rating click, every rendered capture form belongs
to the message the session-wide pending slot pointed at when the pass
began. -/
theorem fold_noclick_pf (ctx : RenderCtx) (e : FbEvent)
    (he : e = .noEvent ∨ ∃ k, e = .submitForm k) (l : List Nat) :
    ∀ (acc : PassResult) (p : Option Nat),
      (acc.state.pending = p ∨ acc.state.pending = none) →
      (∀ x ∈ acc.formsShown, p = some x) →
      (((l.foldl (visitMsg ctx e) acc).state.pending = p ∨
        (l.foldl (visitMsg ctx e) acc).state.pending = none) ∧
       (∀ x ∈ (l.foldl (visitMsg ctx e) acc).formsShown, p = some x)) := by
  induction l with
  | nil =>
    intro acc p hp hfx
    exact ⟨hp, hfx⟩
  | cons j l ih =>
    intro acc p hp hfx
    rw [List.foldl_cons]
    obtain ⟨hvp, hvf⟩ := visit_noclick_pf ctx e acc j he
    refine ih (visitMsg ctx e acc j) p ?_ ?_
    · rcases hvp with hvp | hvp
      · rw [hvp]
        exact hp
      · exact Or.inr hvp
    · intro x hx
      rcases hvf x hx with hx2 | hx2
      · exact hfx x hx2
      · rcases hp with hp | hp
        · rw [← hp]
          exact hx2
        · rw [hp] at hx2
          exact Option.noConfusion hx2

/-- Once a message is rated with the pending slot pointing elsewhere, any
later pass keeps it that way, never renders its capture form again, and
(when it is an assistant message the loop reaches) shows the static
acknowledgment. -/
theorem fold_submitted_inv (ctx : RenderCtx) (e : FbEvent) (i : Nat) (l : List Nat) :
    ∀ acc : PassResult,
      acc.state.status i ≠ .unrated → acc.state.pending ≠ some i →
      (∀ x ∈ acc.formsShown, x ≠ i) →
      ((l.foldl (visitMsg ctx e) acc).state.status i ≠ .unrated ∧
       (l.foldl (visitMsg ctx e) acc).state.pending ≠ some i) ∧
      (∀ x ∈ (l.foldl (visitMsg ctx e) acc).formsShown, x ≠ i) ∧
      (∀ x ∈ acc.acksShown, x ∈ (l.foldl (visitMsg ctx e) acc).acksShown) ∧
      (i ∈ l → ∀ m, ctx.msgs.get? i = some m → m.role = "assistant" →
        i ∈ (l.foldl (visitMsg ctx e) acc).acksShown) := by
  induction l with
  | nil =>
    intro acc h1 h2 hforms
    exact ⟨⟨h1, h2⟩, hforms, fun x hx => hx, fun hco => absurd hco (List.not_mem_nil i)⟩
  | cons j l ih =>
    intro acc h1 h2 hforms
    rw [List.foldl_cons]
    obtain ⟨⟨hv1, hv2⟩, hvf, hva⟩ := visit_submitted_inv ctx e acc i j h1 h2
    have hvforms : ∀ x ∈ (visitMsg ctx e acc j).formsShown, x ≠ i := by
      intro x hx
      rcases hvf x hx with hx2 | hx2
      · exact hforms x hx2
      · exact hx2
    obtain ⟨hs, hf, hacks, hackat⟩ := ih (visitMsg ctx e acc j) hv1 hv2 hvforms
    refine ⟨hs, hf, fun x hx => hacks x (hva x hx), fun hil m hg hrole => ?_⟩
    rcases List.mem_cons.mp hil with hij | hil2
    · subst hij
      exact hacks i (visit_ack_at ctx e acc i m hg hrole h1)
    · exact hackat hil2 m hg hrole

/-! ## Small helpers for the feedback claims -/

theorem lt_length_of_getq_eq_some {α : Type} {l : List α} {n : Nat} {a : α}
    (h : l.get? n = some a) : n < l.length := by
  by_contra hc
  push_neg at hc
  rw [List.get?_eq_none.mpr hc] at h
  exact Option.noConfusion h

/-- A rated message the pending slot does not point at is in the terminal
visual state. -/
theorem msgState_submitted_of (s : FbState) (i : Nat)
    (h1 : s.status i ≠ .unrated) (h2 : s.pending ≠ some i) :
    msgState s i = .submitted := by
  unfold msgState
  cases hst : s.status i with
  | unrated => exact absurd hst h1
  | thumbsUp =>
    dsimp only
    rw [if_neg h2]
  | thumbsDown =>
    dsimp only
    rw [if_neg h2]

/-! ## C2 — question captured with a feedback record -/

/-- C2 is false as stated: on a history with two consecutive assistant
messages (a corruption the spec itself contemplates), the record
submitted for the second assistant message captures the empty question,
while the nearest preceding user message is `"A"` — the code only
inspects index `i - 1`. -/
theorem C2_counterexample :
    (renderPass corruptCtx corruptSt (.submitForm 2)).dispatched.map FeedbackRecord.question
      = [""] ∧
    nearestPrecedingUserContent corruptMsgs 2 = "A" ∧
    ("" : String) ≠ "A" :=
  ⟨rfl, rfl, by decide⟩

/-- C2 (amended): the question captured alongside a feedback record is
the content of the message at index `i - 1` when that message exists and
has role `"user"`, and the empty string otherwise (in particular at
index 0); when the message at `i - 1` is a user message it is also the
nearest preceding user message, so the two descriptions agree exactly in
the adjacent case. -/
theorem C2_question_lookup :
    (∀ msgs : List Msg, questionFor msgs 0 = "") ∧
    (∀ (msgs : List Msg) (j : Nat) (m : Msg), msgs.get? j = some m → m.role ≠ "user" →
       questionFor msgs (j + 1) = "") ∧
    (∀ (msgs : List Msg) (j : Nat) (m : Msg), msgs.get? j = some m → m.role = "user" →
       questionFor msgs (j + 1) = m.content ∧
       questionFor msgs (j + 1) = nearestPrecedingUserContent msgs (j + 1)) ∧
    (∀ (ctx : RenderCtx) (s : FbState) (k : Nat) (m : Msg),
       ctx.msgs.get? k = some m → m.role = "assistant" →
       s.pending = some k → s.status k = .thumbsDown →
       (renderPass ctx s (.submitForm k)).dispatched.map FeedbackRecord.question
         = [questionFor ctx.msgs k]) := by
  refine ⟨fun msgs => rfl, ?_, ?_, ?_⟩
  · intro msgs j m hg hr
    unfold questionFor
    dsimp only
    rw [hg]
    dsimp only
    rw [if_neg hr]
  · intro msgs j m hg hr
    have hq : questionFor msgs (j + 1) = m.content := by
      unfold questionFor
      dsimp only
      rw [hg]
      dsimp only
      rw [if_pos hr]
    refine ⟨hq, ?_⟩
    have htake : msgs.take (j + 1) = msgs.take j ++ [m] := by
      rw [List.take_succ, ← List.get?_eq_getElem?, hg]
      rfl
    unfold nearestPrecedingUserContent
    rw [htake, List.reverse_append, List.reverse_singleton, List.singleton_append,
      List.find?_cons_of_pos _ (by simp [hr]), hq]
  · intro ctx s k m hg hrole hp hsd
    have hlen := lt_length_of_getq_eq_some hg
    have hchar := (fold_submit ctx k m hg hrole (List.range ctx.msgs.length)
      { state := s, formsShown := [], acksShown := [], dispatched := [],
        justSubmitted := false }).2
    unfold renderPass
    rw [hchar, if_pos ⟨List.mem_range.mpr hlen, hp, by rw [hsd]; exact fun hco => by cases hco⟩,
      hsd]
    rfl

theorem C2_question_lookup_witness :
    questionFor exMsgs 1 = "q1" ∧
    questionFor exMsgs 1 = nearestPrecedingUserContent exMsgs 1 ∧
    (renderPass exCtx overwriteSt (.submitForm 1)).dispatched.map FeedbackRecord.question
      = [questionFor exCtx.msgs 1] := by
  obtain ⟨hq1, hq2⟩ := C2_question_lookup.2.2.1 exMsgs 0 { role := "user", content := "q1" }
    rfl rfl
  exact ⟨hq1, hq2,
    C2_question_lookup.2.2.2 exCtx overwriteSt 1 { role := "assistant", content := "a1" }
      rfl rfl rfl (by decide)⟩

/-! ## C3 — feedback state machine -/

/-- C3: a never-rated message is unset; choosing thumbs-down without
completing the form leaves it thumbs-down (not submitted, form still
pending) on the next pass; completing the form moves it to the terminal
visual submitted state, which no later pass can leave: its capture form
is never rendered again while its static acknowledgment is. -/
theorem C3_feedback_state_machine :
    (∀ i, msgState initFb i = .unset) ∧
    (∀ (ctx : RenderCtx) (s : FbState) (i : Nat) (m : Msg),
       ctx.msgs.get? i = some m → m.role = "assistant" → s.status i = .unrated →
       msgState (renderPass ctx s (.clickDown i)).state i = .ratedDown) ∧
    (∀ (ctx : RenderCtx) (s : FbState) (i : Nat) (m : Msg),
       ctx.msgs.get? i = some m → m.role = "assistant" →
       s.pending = some i → s.status i ≠ .unrated →
       msgState (renderPass ctx s (.submitForm i)).state i = .submitted) ∧
    (∀ (ctx : RenderCtx) (s : FbState) (e : FbEvent) (i : Nat),
       s.status i ≠ .unrated → s.pending ≠ some i →
       (msgState (renderPass ctx s e).state i = .submitted ∧
        (renderPass ctx s e).state.status i ≠ .unrated ∧
        (renderPass ctx s e).state.pending ≠ some i ∧
        i ∉ (renderPass ctx s e).formsShown ∧
        (∀ m, ctx.msgs.get? i = some m → m.role = "assistant" →
          i ∈ (renderPass ctx s e).acksShown))) := by
  refine ⟨fun i => rfl, ?_, ?_, ?_⟩
  · intro ctx s i m hg hrole hst
    have hlen := lt_length_of_getq_eq_some hg
    have hchar := fold_state_clickDown ctx i m hg hrole (List.range ctx.msgs.length)
      { state := s, formsShown := [], acksShown := [], dispatched := [],
        justSubmitted := false }
    unfold renderPass
    rw [hchar, if_pos ⟨List.mem_range.mpr hlen, hst⟩]
    simp [msgState, setStatus]
  · intro ctx s i m hg hrole hp hsd
    have hlen := lt_length_of_getq_eq_some hg
    have hchar := (fold_submit ctx i m hg hrole (List.range ctx.msgs.length)
      { state := s, formsShown := [], acksShown := [], dispatched := [],
        justSubmitted := false }).1
    unfold renderPass
    rw [hchar, if_pos ⟨List.mem_range.mpr hlen, hp, hsd⟩]
    exact msgState_submitted_of _ i hsd (fun hco => Option.noConfusion hco)
  · intro ctx s e i h1 h2
    have hinv := fold_submitted_inv ctx e i (List.range ctx.msgs.length)
      { state := s, formsShown := [], acksShown := [], dispatched := [],
        justSubmitted := false } h1 h2 (fun x hx => absurd hx (List.not_mem_nil x))
    obtain ⟨⟨hs1, hs2⟩, hf, _, hackat⟩ := hinv
    refine ⟨msgState_submitted_of _ i hs1 hs2, hs1, hs2, fun hco => hf i hco rfl, ?_⟩
    intro m hg hrole
    exact hackat (List.mem_range.mpr (lt_length_of_getq_eq_some hg)) m hg hrole

theorem C3_feedback_state_machine_witness :
    msgState initFb 1 = .unset ∧
    msgState (renderPass exCtx initFb (.clickDown 1)).state 1 = .ratedDown ∧
    msgState (renderPass exCtx overwriteSt (.submitForm 1)).state 1 = .submitted ∧
    msgState (renderPass exCtx submittedSt .noEvent).state 1 = .submitted ∧
    1 ∉ (renderPass exCtx submittedSt .noEvent).formsShown ∧
    1 ∈ (renderPass exCtx submittedSt .noEvent).acksShown := by
  obtain ⟨hsub, _, _, hform, hack⟩ :=
    C3_feedback_state_machine.2.2.2 exCtx submittedSt .noEvent 1 (by decide) (by decide)
  exact ⟨C3_feedback_state_machine.1 1,
    C3_feedback_state_machine.2.1 exCtx initFb 1 { role := "assistant", content := "a1" }
      rfl rfl rfl,
    C3_feedback_state_machine.2.2.1 exCtx overwriteSt 1 { role := "assistant", content := "a1" }
      rfl rfl rfl (by decide),
    hsub, hform, hack { role := "assistant", content := "a1" } rfl rfl⟩

/-! ## C9 — feedback persistence failure -/

/-- C9: `store_feedback` catches every persistence failure and only
prints a log line, never re-raising to the interactive flow; the
submitting pass clears the pending slot and reaches the terminal
submitted state whatever the write outcome is, dispatching exactly one
record (no retry). -/
theorem C9_persistence :
    (∀ o : DbOutcome, ∃ logs, store_feedback o = .ok logs) ∧
    (∀ e, store_feedback (.fail e) = .ok ["⚠️ Could not store feedback: " ++ e]) ∧
    (store_feedback .success = .ok []) ∧
    (∀ (ctx : RenderCtx) (s : FbState) (k : Nat) (m : Msg) (o : DbOutcome),
       ctx.msgs.get? k = some m → m.role = "assistant" →
       s.pending = some k → s.status k = .thumbsDown →
       msgState (renderPass ctx s (.submitForm k)).state k = .submitted ∧
       (renderPass ctx s (.submitForm k)).dispatched.length = 1 ∧
       (store_feedback o).isOk = true) := by
  refine ⟨?_, fun e => rfl, rfl, ?_⟩
  · intro o
    cases o with
    | success => exact ⟨[], rfl⟩
    | fail e => exact ⟨["⚠️ Could not store feedback: " ++ e], rfl⟩
  · intro ctx s k m o hg hrole hp hsd
    have hlen := lt_length_of_getq_eq_some hg
    have hne : s.status k ≠ .unrated := by
      rw [hsd]
      exact fun hco => by cases hco
    have hchar := fold_submit ctx k m hg hrole (List.range ctx.msgs.length)
      { state := s, formsShown := [], acksShown := [], dispatched := [],
        justSubmitted := false }
    refine ⟨?_, ?_, ?_⟩
    · unfold renderPass
      rw [hchar.1, if_pos ⟨List.mem_range.mpr hlen, hp, hne⟩]
      exact msgState_submitted_of _ k hne (fun hco => Option.noConfusion hco)
    · unfold renderPass
      rw [hchar.2, if_pos ⟨List.mem_range.mpr hlen, hp, hne⟩, hsd]
      rfl
    · cases o <;> rfl

theorem C9_persistence_witness :
    store_feedback (.fail "socket closed")
      = .ok ["⚠️ Could not store feedback: " ++ "socket closed"] ∧
    msgState (renderPass exCtx overwriteSt (.submitForm 1)).state 1 = .submitted ∧
    (renderPass exCtx overwriteSt (.submitForm 1)).dispatched.length = 1 ∧
    (store_feedback (.fail "socket closed")).isOk = true := by
  obtain ⟨hsub, hlen, hok⟩ := C9_persistence.2.2.2 exCtx overwriteSt 1
    { role := "assistant", content := "a1" } (.fail "socket closed") rfl rfl rfl (by decide)
  exact ⟨C9_persistence.2.1 "socket closed", hsub, hlen, hok⟩

/-! ## C10 — the pending marker is one session-wide slot -/

/-- C10 is false as stated: on the pass that overwrites the pending
marker (thumbs-down click on message 3 while message 1 has an open
form), the loop renders message 1's form before the click is processed
and message 3's form after it — two capture forms in one render pass. -/
theorem C10_counterexample :
    (renderPass exCtx overwriteSt (.clickDown 3)).formsShown = [1, 3] ∧
    (1 : Nat) ≠ 3 :=
  ⟨rfl, by decide⟩

/-- C10 (amended): the pending marker is one session-wide slot; in every
pass without a rating click at most one capture form renders (the
marker's target), and a rating click on a second assistant message
overwrites the marker, so from the next pass on the earlier rated-but-
unsubmitted message's form is gone even though its stored rating
remains; only the overwrite pass itself can render both forms once. -/
theorem C10_single_slot :
    (∀ (ctx : RenderCtx) (s : FbState) (e : FbEvent),
       (e = .noEvent ∨ ∃ k, e = .submitForm k) →
       ∀ x ∈ (renderPass ctx s e).formsShown, s.pending = some x) ∧
    (∀ (ctx : RenderCtx) (s : FbState) (e : FbEvent),
       (e = .noEvent ∨ ∃ k, e = .submitForm k) →
       ∀ i j, i ∈ (renderPass ctx s e).formsShown → j ∈ (renderPass ctx s e).formsShown →
         i = j) ∧
    (∀ (ctx : RenderCtx) (s : FbState) (k p : Nat) (m : Msg),
       ctx.msgs.get? k = some m → m.role = "assistant" →
       s.status k = .unrated → s.pending = some p → p ≠ k →
       ((renderPass ctx s (.clickDown k)).state.pending = some k ∧
        (renderPass ctx s (.clickDown k)).state.status p = s.status p ∧
        p ∉ (renderPass ctx ((renderPass ctx s (.clickDown k)).state) .noEvent).formsShown)) := by
  have hforms : ∀ (ctx : RenderCtx) (s : FbState) (e : FbEvent),
      (e = .noEvent ∨ ∃ k, e = .submitForm k) →
      ∀ x ∈ (renderPass ctx s e).formsShown, s.pending = some x := by
    intro ctx s e he x hx
    have h := (fold_noclick_pf ctx e he (List.range ctx.msgs.length)
      { state := s, formsShown := [], acksShown := [], dispatched := [],
        justSubmitted := false } s.pending (Or.inl rfl)
      (fun y hy => absurd hy (List.not_mem_nil y))).2
    exact h x hx
  refine ⟨hforms, ?_, ?_⟩
  · intro ctx s e he i j hi hj
    have h1 := hforms ctx s e he i hi
    have h2 := hforms ctx s e he j hj
    exact Option.some.inj (h1.symm.trans h2)
  · intro ctx s k p m hg hrole hst hp hpk
    have hlen := lt_length_of_getq_eq_some hg
    have hchar := fold_state_clickDown ctx k m hg hrole (List.range ctx.msgs.length)
      { state := s, formsShown := [], acksShown := [], dispatched := [],
        justSubmitted := false }
    have hstate : (renderPass ctx s (.clickDown k)).state =
        { setStatus s k .thumbsDown with pending := some k } := by
      unfold renderPass
      rw [hchar, if_pos ⟨List.mem_range.mpr hlen, hst⟩]
    refine ⟨by rw [hstate], ?_, ?_⟩
    · rw [hstate]
      exact setStatus_status_ne s k p .thumbsDown hpk
    · intro hco
      have h := hforms ctx ((renderPass ctx s (.clickDown k)).state) .noEvent (Or.inl rfl)
        p hco
      rw [hstate] at h
      exact hpk (Option.some.inj h).symm

theorem C10_single_slot_witness :
    (renderPass exCtx overwriteSt (.clickDown 3)).state.pending = some 3 ∧
    (renderPass exCtx overwriteSt (.clickDown 3)).state.status 1 = overwriteSt.status 1 ∧
    1 ∉ (renderPass exCtx ((renderPass exCtx overwriteSt (.clickDown 3)).state)
          .noEvent).formsShown :=
  C10_single_slot.2.2 exCtx overwriteSt 3 1 { role := "assistant", content := "a3" }
    rfl rfl (by decide) rfl (by decide)

end ChatApp
